import Mathlib

/-!
# Verification of `migrations/001_seed_monitors.ts` (uptime-kuma-themes)

Shallow embedding of the monitor-seeding migration script.  The script:

* holds a static catalogue of monitor definitions (`monitors`),
* `seedMonitors`: for each definition computes `url = MOCK_SERVER_BASE + path`,
  queries `SELECT id FROM monitor WHERE url = $url` (byte equality under
  SQLite's default BINARY collation) and either skips the definition or
  inserts a row built from fixed constants plus the definition's
  `name`/`url`/`timeout`(default 48)/`description`/`keyword`(default NULL),
* `clearMonitors`: runs `DELETE FROM monitor WHERE url LIKE '<base>%'`
  (SQLite `LIKE` is ASCII case-insensitive by default and the base contains
  no `%`/`_` wildcard characters),
* `main`: aborts with exit code 1 when the database file is absent, otherwise
  optionally clears (once for `--clear`, once more for `--force`), seeds, and
  reports the summary plus `SELECT COUNT(*) FROM monitor`.

Storage is modelled as a list of rows plus a monotone next-rowid counter;
nullable SQL columns are `Option`s, and SQL `=` against `NULL` is never true.
-/

namespace SeedMigration

/-- A catalogue entry of the static `monitors` array: `name`, `path`,
`description`, optional `timeout` (seconds) and optional `keyword`. -/
structure MonitorDef where
  name : String
  path : String
  description : String
  timeout : Option Nat := none
  keyword : Option String := none
deriving DecidableEq, Repr

/-- `MOCK_SERVER_BASE` constant from the script. -/
def MOCK_SERVER_BASE : String := "http://host.docker.internal:3000"

/-- `DEFAULT_USER_ID` constant from the script. -/
def DEFAULT_USER_ID : Nat := 1

/-- The static `monitors` catalogue, verbatim from the script. -/
def monitors : List MonitorDef := [
  { name := "Always Up", path := "/always-up", description := "Always returns 200 OK" },
  { name := "Always Down", path := "/always-down", description := "Always returns 500 error" },
  { name := "Random Failures (20%)", path := "/random-failures", description := "20% chance of failure" },
  { name := "Frequent Failures (50%)", path := "/frequent-failures", description := "50% chance of failure" },
  { name := "Intermittent (Every 3rd)", path := "/intermittent", description := "Fails every 3rd request" },
  { name := "Flapping", path := "/flapping", description := "Alternates between up and down" },
  { name := "Slow Response", path := "/slow-response", description := "2-5 second delay", timeout := some 10 },
  { name := "Very Slow", path := "/very-slow", description := "10-15 second delay (may timeout)", timeout := some 20 },
  { name := "Timeout Simulation", path := "/timeout", description := "Never responds (tests timeout handling)", timeout := some 5 },
  { name := "Memory Leak Sim", path := "/memory-leak", description := "Gets slower with each request" },
  { name := "Degraded Status", path := "/degraded", description := "Returns 200 with degraded status" },
  { name := "Maintenance Mode", path := "/maintenance", description := "Returns 503 maintenance mode" },
  { name := "Scheduled Downtime", path := "/scheduled-down", description := "Down during minutes 0-5 and 30-35" },
  { name := "Partial Outage", path := "/partial-outage", description := "Random partial service outage" },
  { name := "Rate Limited", path := "/rate-limited", description := "Returns 429 after 10 req/min" },
  { name := "Health Check", path := "/health", description := "Detailed health check response" },
  { name := "Ping", path := "/ping", description := "Simple ping/pong" },
  { name := "Keyword Check", path := "/keyword-check", description := "JSON with monitorable keywords", keyword := some "OPERATIONAL" },
  { name := "HTML Status", path := "/html-status", description := "HTML page with status" },
  { name := "Cert Check", path := "/cert-check", description := "Certificate expiry simulation" },
  { name := "Docker Healthy", path := "/docker/healthy", description := "Healthy container status" },
  { name := "Docker Unhealthy", path := "/docker/unhealthy", description := "Unhealthy container status" }]

/-- A row of the `monitor` table, with exactly the columns the INSERT
statement sets (plus the storage-assigned `id`).  Nullable columns are
`Option`; the `url` column is nullable in the external schema, so rows not
created by this tool may carry no url. -/
structure MonitorRecord where
  id : Nat
  name : String
  active : Nat
  user_id : Nat
  interval : Nat
  url : Option String
  type : String
  weight : Nat
  method : String
  maxretries : Nat
  ignore_tls : Nat
  upside_down : Nat
  maxredirects : Nat
  accepted_statuscodes_json : String
  dns_resolve_type : String
  dns_resolve_server : Option String
  retry_interval : Nat
  http_body_encoding : Option String
  timeout : Nat
  resend_interval : Nat
  packet_size : Nat
  gamedig_given_port_only : Nat
  kafka_producer_ssl : Nat
  kafka_producer_allow_auto_topic_creation : Nat
  mqtt_check_type : String
  json_path_operator : Option String
  cache_bust : Nat
  conditions : String
  ping_count : Nat
  ping_numeric : Nat
  ping_per_request_timeout : Nat
  description : String
  keyword : Option String
deriving DecidableEq, Repr

/-- The storage state: the rows of the `monitor` table in rowid order, plus
the next rowid the store will assign. -/
structure DB where
  records : List MonitorRecord
  nextId : Nat
deriving DecidableEq, Repr

/-- Empty storage (no rows yet; first rowid will be 1). -/
def dbEmpty : DB := ⟨[], 1⟩

/-- `url = MOCK_SERVER_BASE + monitor.path` computed per definition. -/
def monitorUrl (m : MonitorDef) : String := MOCK_SERVER_BASE ++ m.path

/-- The row built by `insertStmt.run`: every column constant except
`name`, `user_id`, `url`, `timeout` (`monitor.timeout ?? 48`), `description`
and `keyword` (`monitor.keyword ?? null`). -/
def mkRecord (id : Nat) (m : MonitorDef) (url : String) : MonitorRecord :=
  { id := id
    name := m.name
    active := 1
    user_id := DEFAULT_USER_ID
    interval := 60
    url := some url
    type := "http"
    weight := 2000
    method := "GET"
    maxretries := 0
    ignore_tls := 0
    upside_down := 0
    maxredirects := 10
    accepted_statuscodes_json := "[\"200-299\"]"
    dns_resolve_type := "A"
    dns_resolve_server := none
    retry_interval := 0
    http_body_encoding := none
    timeout := m.timeout.getD 48
    resend_interval := 0
    packet_size := 56
    gamedig_given_port_only := 1
    kafka_producer_ssl := 0
    kafka_producer_allow_auto_topic_creation := 0
    mqtt_check_type := "keyword"
    json_path_operator := none
    cache_bust := 0
    conditions := "[]"
    ping_count := 1
    ping_numeric := 1
    ping_per_request_timeout := 2
    description := m.description
    keyword := m.keyword }

/-- `existingStmt.get({$url: url})` is truthy: some row of the table has
`url = $url` (SQL equality: a NULL url never matches). -/
def urlExists (db : DB) (u : String) : Bool :=
  db.records.any (fun r => r.url == some u)

/-- Effect of `insertStmt.run` on the storage state: append the new row and
advance the rowid counter. -/
def insertRecord (db : DB) (m : MonitorDef) (url : String) : DB :=
  ⟨db.records ++ [mkRecord db.nextId m url], db.nextId + 1⟩

/-- The per-definition line printed by the seed loop. -/
inductive Outcome where
  | insertedDef (name : String)
  | skippedDef (name : String)
deriving DecidableEq, Repr

/-- Result of `seedMonitors`: final storage, the `inserted` and `skipped`
counters of the summary line, and the per-definition outcome lines in
catalogue order. -/
structure SeedResult where
  db : DB
  inserted : Nat
  skipped : Nat
  outcomes : List Outcome
deriving DecidableEq, Repr

/-- The seed loop over a list of definitions: per definition compute the
url, check existence, and either skip or insert.  Each existence check runs
against the storage state left by all earlier iterations. -/
def seedMonitorsFrom (db : DB) : List MonitorDef → SeedResult
  | [] => ⟨db, 0, 0, []⟩
  | m :: rest =>
    if urlExists db (monitorUrl m) then
      let r := seedMonitorsFrom db rest
      ⟨r.db, r.inserted, r.skipped + 1, Outcome.skippedDef m.name :: r.outcomes⟩
    else
      let r := seedMonitorsFrom (insertRecord db m (monitorUrl m)) rest
      ⟨r.db, r.inserted + 1, r.skipped, Outcome.insertedDef m.name :: r.outcomes⟩

/-- `seedMonitors(db)`: the seed loop over the static catalogue. -/
def seedMonitors (db : DB) : SeedResult := seedMonitorsFrom db monitors

/-- SQLite's default ASCII-only lower-casing (NOCASE folding used by `LIKE`). -/
def asciiLowerChar (c : Char) : Char :=
  if 'A' ≤ c ∧ c ≤ 'Z' then Char.ofNat (c.toNat + 32) else c

/-- SQLite `LIKE` pattern matching with default settings: `%` matches any
sequence, `_` matches any single character, and ordinary characters compare
ASCII-case-insensitively. -/
def likeMatch : List Char → List Char → Bool
  | [], s => s.isEmpty
  | p :: ps, s =>
    if p = '%' then
      s.tails.any (fun t => likeMatch ps t)
    else
      match s with
      | [] => false
      | c :: s' => (p = '_' || asciiLowerChar p == asciiLowerChar c) && likeMatch ps s'

/-- The WHERE clause of `DELETE FROM monitor WHERE url LIKE '<base>%'` on a
row (a NULL url never matches a LIKE). -/
def recordMatchesClear (r : MonitorRecord) : Bool :=
  match r.url with
  | none => false
  | some u => likeMatch (MOCK_SERVER_BASE ++ "%").data u.data

/-- `clearMonitors(db)`: delete the LIKE-matching rows, returning the new
storage state and `result.changes` (the number of deleted rows). -/
def clearMonitors (db : DB) : DB × Nat :=
  (⟨db.records.filter (fun r => !(recordMatchesClear r)), db.nextId⟩,
   (db.records.filter (fun r => recordMatchesClear r)).length)

/-- A row's url starts, ASCII-case-insensitively, with `MOCK_SERVER_BASE`
(the semantics the LIKE clause actually implements). -/
def urlUnderBase (r : MonitorRecord) : Bool :=
  match r.url with
  | none => false
  | some u => (MOCK_SERVER_BASE.data.map asciiLowerChar).isPrefixOf (u.data.map asciiLowerChar)

/-- A row's url starts byte-wise with `MOCK_SERVER_BASE` — the predicate the
spec's clear-scoping sentence describes ("begins (byte-wise) with the base
URL"), for comparison with what the code's LIKE clause does. -/
def specByteUnderBase (r : MonitorRecord) : Bool :=
  match r.url with
  | none => false
  | some u => MOCK_SERVER_BASE.data.isPrefixOf u.data

/-- Result of a whole run of `main`: the process exit code, the final
storage content (`none` when the database file was absent, hence untouched),
the `inserted`/`skipped` summary, and the final `SELECT COUNT(*)` report. -/
structure MainResult where
  exitCode : Nat
  db : Option DB
  summary : Option (Nat × Nat)
  totalCount : Option Nat
deriving DecidableEq, Repr

/-- `main()`: abort with exit code 1 when the database file is absent
(before any operation); otherwise clear once per given flag (`--clear` then
`--force`), seed, and report the summary and the total row count.  Storage
operations cannot fail in this model, matching the run in which every
storage operation succeeds. -/
def main (dbFile : Option DB) (shouldClear shouldForce : Bool) : MainResult :=
  match dbFile with
  | none => ⟨1, none, none, none⟩
  | some db =>
    let db1 := if shouldClear then (clearMonitors db).1 else db
    let db2 := if shouldForce then (clearMonitors db1).1 else db1
    let r := seedMonitorsFrom db2 monitors
    ⟨0, some r.db, some (r.inserted, r.skipped), some r.db.records.length⟩

/-- The operations of this tool that touch storage, for reachability
statements: a full seed pass or a clear pass. -/
inductive Op where
  | seed
  | clear
deriving DecidableEq, Repr

/-- Storage effect of one operation. -/
def applyOp : Op → DB → DB
  | .seed, db => (seedMonitors db).db
  | .clear, db => (clearMonitors db).1

/-- Storage effect of a sequence of operations, applied left to right. -/
def applyOps : List Op → DB → DB
  | [], db => db
  | op :: ops, db => applyOps ops (applyOp op db)

/-- At most one row per distinct (non-NULL) url: any two rows either have
no url or differ in url. -/
def UniqueUrls (db : DB) : Prop :=
  db.records.Pairwise (fun a b => a.url = none ∨ a.url ≠ b.url)

/-- A sample catalogue entry (the first one), for concrete instantiations. -/
def demoDef : MonitorDef :=
  { name := "Always Up", path := "/always-up", description := "Always returns 200 OK" }

/-- A row whose url is the upper-cased base URL plus a path: it does not
begin byte-wise with `MOCK_SERVER_BASE`, but SQLite LIKE matches it
case-insensitively. -/
def upperUrlRecord : MonitorRecord :=
  mkRecord 1 demoDef "HTTP://HOST.DOCKER.INTERNAL:3000/x"

/-- Storage holding only `upperUrlRecord`. -/
def dbUpper : DB := ⟨[upperUrlRecord], 2⟩

/-! ## Lemmas about the seed loop -/

theorem urlExists_iff (db : DB) (u : String) :
    urlExists db u = true ↔ ∃ r ∈ db.records, r.url = some u := by
  simp [urlExists, List.any_eq_true]

theorem seedFrom_records_eq_append (defs : List MonitorDef) (db : DB) :
    ∃ tail, (seedMonitorsFrom db defs).db.records = db.records ++ tail := by
  induction defs generalizing db with
  | nil => exact ⟨[], by simp [seedMonitorsFrom]⟩
  | cons m rest ih =>
    by_cases h : urlExists db (monitorUrl m)
    · obtain ⟨t, ht⟩ := ih db
      exact ⟨t, by simp [seedMonitorsFrom, h, ht]⟩
    · obtain ⟨t, ht⟩ := ih (insertRecord db m (monitorUrl m))
      refine ⟨mkRecord db.nextId m (monitorUrl m) :: t, ?_⟩
      simp only [insertRecord] at ht
      simp [seedMonitorsFrom, h, ht, insertRecord]

theorem urlExists_mono (defs : List MonitorDef) (db : DB) (u : String)
    (h : urlExists db u = true) :
    urlExists (seedMonitorsFrom db defs).db u = true := by
  obtain ⟨t, ht⟩ := seedFrom_records_eq_append defs db
  simp only [urlExists, ht, List.any_append]
  simp only [urlExists] at h
  simp [h]

theorem urlExists_insertRecord_self (db : DB) (m : MonitorDef) (url : String) :
    urlExists (insertRecord db m url) url = true := by
  simp [urlExists, insertRecord, mkRecord]

theorem urlExists_insertRecord_mono (db : DB) (m : MonitorDef) (url u : String)
    (h : urlExists db u = true) :
    urlExists (insertRecord db m url) u = true := by
  simp only [urlExists, insertRecord, List.any_append]
  simp only [urlExists] at h
  simp [h]

theorem seedFrom_urlExists_after (defs : List MonitorDef) (db : DB) (d : MonitorDef)
    (hd : d ∈ defs) :
    urlExists (seedMonitorsFrom db defs).db (monitorUrl d) = true := by
  induction defs generalizing db with
  | nil => cases hd
  | cons m rest ih =>
    rcases List.mem_cons.mp hd with rfl | hmem
    · by_cases h : urlExists db (monitorUrl d)
      · simpa [seedMonitorsFrom, h] using urlExists_mono rest db (monitorUrl d) h
      · simpa [seedMonitorsFrom, h] using
          urlExists_mono rest (insertRecord db d (monitorUrl d)) (monitorUrl d)
            (urlExists_insertRecord_self db d (monitorUrl d))
    · by_cases h : urlExists db (monitorUrl m)
      · simpa [seedMonitorsFrom, h] using ih db hmem
      · simpa [seedMonitorsFrom, h] using ih (insertRecord db m (monitorUrl m)) hmem

theorem seedFrom_all_skip (defs : List MonitorDef) (db : DB)
    (h : ∀ d ∈ defs, urlExists db (monitorUrl d) = true) :
    seedMonitorsFrom db defs =
      ⟨db, 0, defs.length, defs.map (fun m => Outcome.skippedDef m.name)⟩ := by
  induction defs with
  | nil => simp [seedMonitorsFrom]
  | cons m rest ih =>
    have hm : urlExists db (monitorUrl m) = true := h m (by simp)
    have hrest := ih (fun d hd => h d (by simp [hd]))
    simp [seedMonitorsFrom, hm, hrest]

/-! ## Lemmas about LIKE matching and the clear operation -/

theorem likeMatch_percent_all (s : List Char) : likeMatch ['%'] s = true := by
  induction s with
  | nil => rfl
  | cons c s ih =>
    simp only [likeMatch, if_pos rfl] at ih ⊢
    simp [List.tails_cons, ih]

theorem likeMatch_noWild_percent (xs : List Char)
    (hx : ∀ c ∈ xs, c ≠ '%' ∧ c ≠ '_') (u : List Char) :
    likeMatch (xs ++ ['%']) u
      = (xs.map asciiLowerChar).isPrefixOf (u.map asciiLowerChar) := by
  induction xs generalizing u with
  | nil => simp [likeMatch_percent_all, List.isPrefixOf]
  | cons x xs ih =>
    obtain ⟨hp, hu⟩ := hx x (by simp)
    have hxs : ∀ c ∈ xs, c ≠ '%' ∧ c ≠ '_' := fun c hc => hx c (by simp [hc])
    cases u with
    | nil => simp [likeMatch, hp, List.isPrefixOf]
    | cons c u' => simp [likeMatch, hp, hu, List.isPrefixOf, ih hxs u']

theorem recordMatchesClear_eq_urlUnderBase (r : MonitorRecord) :
    recordMatchesClear r = urlUnderBase r := by
  cases hru : r.url with
  | none => simp [recordMatchesClear, urlUnderBase, hru]
  | some u =>
    have hdata : (MOCK_SERVER_BASE ++ "%").data = MOCK_SERVER_BASE.data ++ ['%'] := by
      rw [String.data_append]
    simp [recordMatchesClear, urlUnderBase, hru, hdata,
      likeMatch_noWild_percent MOCK_SERVER_BASE.data (by decide)]

theorem isPrefixOf_map_asciiLower (l1 l2 : List Char)
    (h : l1.isPrefixOf l2 = true) :
    (l1.map asciiLowerChar).isPrefixOf (l2.map asciiLowerChar) = true := by
  induction l1 generalizing l2 with
  | nil => simp [List.isPrefixOf]
  | cons a as ih =>
    cases l2 with
    | nil => simp [List.isPrefixOf] at h
    | cons b bs =>
      simp only [List.isPrefixOf, Bool.and_eq_true, beq_iff_eq] at h
      obtain ⟨rfl, h2⟩ := h
      simp [List.isPrefixOf, ih bs h2]

theorem clearMonitors_idem (db : DB) :
    (clearMonitors (clearMonitors db).1).1 = (clearMonitors db).1 := by
  simp [clearMonitors, List.filter_filter]

/-! ## Lemmas about url uniqueness -/

theorem uniqueUrls_insertRecord (db : DB) (m : MonitorDef) (url : String)
    (hdb : UniqueUrls db) (h : urlExists db url = false) :
    UniqueUrls (insertRecord db m url) := by
  unfold UniqueUrls insertRecord at *
  rw [List.pairwise_append]
  refine ⟨hdb, by simp, ?_⟩
  intro a ha b hb
  simp only [List.mem_singleton] at hb
  subst hb
  right
  intro heq
  have hau : a.url = some url := by rw [heq]; rfl
  have : urlExists db url = true := (urlExists_iff db url).mpr ⟨a, ha, hau⟩
  simp [this] at h

theorem seedFrom_preserves_uniqueUrls (defs : List MonitorDef) (db : DB)
    (hdb : UniqueUrls db) : UniqueUrls (seedMonitorsFrom db defs).db := by
  induction defs generalizing db with
  | nil => simpa [seedMonitorsFrom] using hdb
  | cons m rest ih =>
    by_cases h : urlExists db (monitorUrl m)
    · simpa [seedMonitorsFrom, h] using ih db hdb
    · have h' : urlExists db (monitorUrl m) = false := by simpa using h
      simpa [seedMonitorsFrom, h] using
        ih (insertRecord db m (monitorUrl m)) (uniqueUrls_insertRecord db m _ hdb h')

theorem clear_preserves_uniqueUrls (db : DB) (hdb : UniqueUrls db) :
    UniqueUrls (clearMonitors db).1 := by
  unfold UniqueUrls at *
  exact List.Pairwise.sublist (List.filter_sublist _) hdb

theorem pairwise_filter_url_length_le_one (l : List MonitorRecord) (u : String)
    (h : l.Pairwise (fun a b => a.url = none ∨ a.url ≠ b.url)) :
    (l.filter (fun r => r.url == some u)).length ≤ 1 := by
  induction l with
  | nil => simp
  | cons a l ih =>
    rw [List.pairwise_cons] at h
    obtain ⟨ha, hl⟩ := h
    by_cases hau : a.url = some u
    · have hfl : l.filter (fun r => r.url == some u) = [] := by
        rw [List.filter_eq_nil_iff]
        intro b hb
        rcases ha b hb with h1 | h2
        · rw [hau] at h1; cases h1
        · rw [hau] at h2
          simp only [beq_iff_eq]
          exact fun hbu => h2 hbu.symm
      simp [List.filter_cons, hau, hfl]
    · simp only [List.filter_cons, beq_iff_eq, hau, if_false]
      exact ih hl

theorem seedFrom_inserted_add_skipped (defs : List MonitorDef) (db : DB) :
    (seedMonitorsFrom db defs).inserted + (seedMonitorsFrom db defs).skipped
      = defs.length := by
  induction defs generalizing db with
  | nil => rfl
  | cons m rest ih =>
    by_cases h : urlExists db (monitorUrl m)
    · have := ih db
      simp [seedMonitorsFrom, h]
      omega
    · have := ih (insertRecord db m (monitorUrl m))
      simp [seedMonitorsFrom, h]
      omega

/-! ## Claims -/

/-- Claim C1: for every storage state and the fixed catalogue, running the
seed operation twice in succession (with no clear in between) inserts zero
new rows on the second run: the storage after the second run equals the
storage after the first, and on the second run every definition is reported
as skipped. -/
theorem seed_idempotent (db : DB) :
    (seedMonitors (seedMonitors db).db).db = (seedMonitors db).db ∧
    (seedMonitors (seedMonitors db).db).inserted = 0 ∧
    (seedMonitors (seedMonitors db).db).skipped = monitors.length ∧
    (seedMonitors (seedMonitors db).db).outcomes
      = monitors.map (fun m => Outcome.skippedDef m.name) := by
  have h : ∀ d ∈ monitors, urlExists (seedMonitors db).db (monitorUrl d) = true :=
    fun d hd => seedFrom_urlExists_after monitors db d hd
  have hall := seedFrom_all_skip monitors (seedMonitors db).db h
  unfold seedMonitors at hall ⊢
  rw [hall]
  exact ⟨rfl, rfl, rfl, rfl⟩

/-- Claim C2, counterexample to the byte-wise reading: SQLite `LIKE` is
ASCII-case-insensitive, so a row whose url is the upper-cased base URL plus
a path — which does not begin byte-wise with the base URL — is nevertheless
deleted by the clear operation. -/
theorem clear_bytewise_counterexample :
    ¬ (∀ db : DB, (clearMonitors db).1.records
        = db.records.filter (fun r => !(specByteUnderBase r))) := by
  intro hcl
  exact absurd (hcl dbUpper) (by decide)

/-- Claim C2 (amended): the clear operation deletes exactly the rows whose
url begins with the base URL under SQLite LIKE semantics, i.e. ASCII
case-insensitively (rather than byte-wise), reports their number, and leaves
every other row unchanged in count and content; every row whose url does
begin byte-wise with the base URL is still among the deleted ones. -/
theorem clear_scoping (db : DB) :
    (clearMonitors db).1.records = db.records.filter (fun r => !(urlUnderBase r)) ∧
    (clearMonitors db).2 = (db.records.filter (fun r => urlUnderBase r)).length ∧
    (clearMonitors db).1.nextId = db.nextId ∧
    ∀ r ∈ db.records, specByteUnderBase r = true → r ∉ (clearMonitors db).1.records := by
  refine ⟨?_, ?_, rfl, ?_⟩
  · simp [clearMonitors, recordMatchesClear_eq_urlUnderBase]
  · simp [clearMonitors, recordMatchesClear_eq_urlUnderBase]
  · intro r hr hbyte hmem
    have hund : urlUnderBase r = true := by
      cases hru : r.url with
      | none => simp [specByteUnderBase, hru] at hbyte
      | some u =>
        simp only [specByteUnderBase, hru] at hbyte
        simp only [urlUnderBase, hru]
        exact isPrefixOf_map_asciiLower _ _ hbyte
    simp [clearMonitors, List.mem_filter, recordMatchesClear_eq_urlUnderBase, hund] at hmem

/-- Witness for the amended C2 at a concrete storage state: the seeded-style
row with the byte-wise base-prefixed url is removed by clear. -/
theorem clear_scoping_witness :
    mkRecord 1 demoDef (monitorUrl demoDef) ∉
      (clearMonitors ⟨[mkRecord 1 demoDef (monitorUrl demoDef)], 2⟩).1.records :=
  (clear_scoping ⟨[mkRecord 1 demoDef (monitorUrl demoDef)], 2⟩).2.2.2
    (mkRecord 1 demoDef (monitorUrl demoDef)) (by simp) (by decide)

/-- Claim C3: at most one row exists per distinct url among the rows this
tool manages: every storage state reached from a state satisfying the
invariant by any sequence of seed and clear operations still satisfies it
(guarded by the seeder's per-definition existence check, not by a storage
uniqueness constraint). -/
theorem reachable_uniqueUrls (ops : List Op) (db : DB) (hdb : UniqueUrls db) :
    UniqueUrls (applyOps ops db) := by
  induction ops generalizing db with
  | nil => exact hdb
  | cons op ops ih =>
    cases op with
    | seed => exact ih _ (seedFrom_preserves_uniqueUrls monitors db hdb)
    | clear => exact ih _ (clear_preserves_uniqueUrls db hdb)

/-- Witness for C3: a seed–clear–seed sequence from empty storage keeps the
url-uniqueness invariant. -/
theorem reachable_uniqueUrls_witness :
    UniqueUrls (applyOps [Op.seed, Op.clear, Op.seed] dbEmpty) :=
  reachable_uniqueUrls [Op.seed, Op.clear, Op.seed] dbEmpty List.Pairwise.nil

/-- Claim C4: definitions with different `path` values get different
computed urls (no natural-key collision), and a definition is reported
skipped precisely when some stored row's url is byte-equal to the
definition's computed url. -/
theorem naturalKey_correct :
    (∀ d1 d2 : MonitorDef, d1.path ≠ d2.path → monitorUrl d1 ≠ monitorUrl d2) ∧
    (∀ (db : DB) (d : MonitorDef) (rest : List MonitorDef),
      (seedMonitorsFrom db (d :: rest)).outcomes.head?
          = some (Outcome.skippedDef d.name)
        ↔ ∃ r ∈ db.records, r.url = some (monitorUrl d)) := by
  constructor
  · intro d1 d2 hne heq
    apply hne
    unfold monitorUrl at heq
    have hdata := congrArg String.data heq
    rw [String.data_append, String.data_append] at hdata
    exact String.ext (List.append_cancel_left hdata)
  · intro db d rest
    rw [← urlExists_iff]
    by_cases h : urlExists db (monitorUrl d)
    · simp [seedMonitorsFrom, h]
    · simp [seedMonitorsFrom, h]

/-- Witness for C4: the two first catalogue paths give distinct urls. -/
theorem naturalKey_correct_witness :
    monitorUrl demoDef ≠ monitorUrl
      { name := "Always Down", path := "/always-down",
        description := "Always returns 500 error" } :=
  naturalKey_correct.1 _ _ (by decide)

/-- Claim C5: seeding empty storage inserts one row per catalogue entry and
skips none, and the post-run total count query reports the catalogue size. -/
theorem seed_empty_summary :
    (seedMonitors dbEmpty).inserted = monitors.length ∧
    (seedMonitors dbEmpty).skipped = 0 ∧
    (seedMonitors dbEmpty).db.records.length = monitors.length ∧
    (main (some dbEmpty) false false).totalCount = some monitors.length := by
  decide

/-- Claim C6: when a definition is inserted, the row it produces is
`mkRecord` at the current rowid; a definition omitting `timeout` yields the
tool-wide default timeout 48, and one omitting `keyword` yields a NULL
keyword. -/
theorem insert_default_fallback (db : DB) (d : MonitorDef) (rest : List MonitorDef)
    (h : urlExists db (monitorUrl d) = false) :
    (seedMonitorsFrom db (d :: rest)).db.records.take (db.records.length + 1)
        = db.records ++ [mkRecord db.nextId d (monitorUrl d)] ∧
    (d.timeout = none → (mkRecord db.nextId d (monitorUrl d)).timeout = 48) ∧
    (d.keyword = none → (mkRecord db.nextId d (monitorUrl d)).keyword = none) := by
  refine ⟨?_, fun ht => by simp [mkRecord, ht], fun hk => by simp [mkRecord, hk]⟩
  obtain ⟨t, htail⟩ := seedFrom_records_eq_append rest (insertRecord db d (monitorUrl d))
  simp only [insertRecord] at htail
  have hrec : (seedMonitorsFrom db (d :: rest)).db.records
      = (db.records ++ [mkRecord db.nextId d (monitorUrl d)]) ++ t := by
    simp [seedMonitorsFrom, h, insertRecord, htail]
  rw [hrec]
  have hlen : db.records.length + 1
      = (db.records ++ [mkRecord db.nextId d (monitorUrl d)]).length := by simp
  rw [hlen, List.take_left]

/-- Witness for C6: inserting the first catalogue entry (which omits both
`timeout` and `keyword`) into empty storage. -/
theorem insert_default_fallback_witness :
    (seedMonitorsFrom dbEmpty [demoDef]).db.records.take (dbEmpty.records.length + 1)
        = dbEmpty.records ++ [mkRecord dbEmpty.nextId demoDef (monitorUrl demoDef)] ∧
    (demoDef.timeout = none →
      (mkRecord dbEmpty.nextId demoDef (monitorUrl demoDef)).timeout = 48) ∧
    (demoDef.keyword = none →
      (mkRecord dbEmpty.nextId demoDef (monitorUrl demoDef)).keyword = none) :=
  insert_default_fallback dbEmpty demoDef [] (by decide)

/-- Claim C7: the storage effect of a run is seed-only when neither flag is
given and clear-then-seed otherwise, so the force mode coincides with the
clear-then-seed mode, and passing both flags yields the same final storage
content as passing only the clear flag. -/
theorem run_modes (db : DB) (c f : Bool) :
    (main (some db) c f).db =
      some (if c || f then (seedMonitorsFrom (clearMonitors db).1 monitors).db
            else (seedMonitorsFrom db monitors).db) := by
  cases c <;> cases f <;> simp [main, clearMonitors_idem]

/-- Claim C8: the seed operation never mutates or removes an existing row:
the rows after seeding are exactly the original rows (unchanged, in order)
followed by the newly inserted ones, so every pre-existing row — whatever
its field values — is still present, field for field. -/
theorem seed_no_mutation (db : DB) :
    (∃ tail, (seedMonitors db).db.records = db.records ++ tail) ∧
    ∀ r ∈ db.records, r ∈ (seedMonitors db).db.records := by
  obtain ⟨t, ht⟩ := seedFrom_records_eq_append monitors db
  exact ⟨⟨t, ht⟩, fun r hr => by unfold seedMonitors; rw [ht]; exact List.mem_append_left _ hr⟩

/-- Witness for C8: a pre-existing row (here one under the base url, whose
catalogue entry now differs) survives a seed run unchanged. -/
theorem seed_no_mutation_witness :
    upperUrlRecord ∈ (seedMonitors dbUpper).db.records :=
  (seed_no_mutation dbUpper).2 upperUrlRecord (by simp [dbUpper])

/-- Claim C9: when the storage file is absent the run exits with status 1
before any clear or seed operation, leaving no storage behind; when it is
present (and, as in this model, every storage operation succeeds) the run
exits with status 0 after reporting the summary and the final total count. -/
theorem exit_behavior :
    (∀ c f : Bool, main none c f = ⟨1, none, none, none⟩) ∧
    (∀ (db : DB) (c f : Bool), (main (some db) c f).exitCode = 0 ∧
      ∃ fdb ins skp,
        main (some db) c f = ⟨0, some fdb, some (ins, skp), some fdb.records.length⟩) :=
  ⟨fun _ _ => rfl, fun _ _ _ => ⟨rfl, _, _, _, rfl⟩⟩

/-- Claim C10: within a single seed run — even over a definition list with
duplicated paths — at most one row exists per url afterwards (each
existence check sees all earlier inserts of the same run), and every
definition is reported exactly once, as inserted or as skipped. -/
theorem seed_run_no_duplicate_urls (db : DB) (defs : List MonitorDef) (u : String)
    (hdb : UniqueUrls db) :
    ((seedMonitorsFrom db defs).db.records.filter (fun r => r.url == some u)).length ≤ 1 ∧
    (seedMonitorsFrom db defs).inserted + (seedMonitorsFrom db defs).skipped
      = defs.length :=
  ⟨pairwise_filter_url_length_le_one _ u (seedFrom_preserves_uniqueUrls defs db hdb),
   seedFrom_inserted_add_skipped defs db⟩

/-- Witness for C10: seeding a list holding the same definition twice from
empty storage still yields at most one row for its url, with both
occurrences reported. -/
theorem seed_run_no_duplicate_urls_witness :
    ((seedMonitorsFrom dbEmpty [demoDef, demoDef]).db.records.filter
        (fun r => r.url == some (monitorUrl demoDef))).length ≤ 1 ∧
    (seedMonitorsFrom dbEmpty [demoDef, demoDef]).inserted
      + (seedMonitorsFrom dbEmpty [demoDef, demoDef]).skipped = 2 :=
  seed_run_no_duplicate_urls dbEmpty [demoDef, demoDef] (monitorUrl demoDef) List.Pairwise.nil

end SeedMigration
